import Mathlib

/-!
Shallow embedding of `src/network.rs` from the `gear` repository: the network
bridge that turns the laminar transport's poll-driven model into a
non-blocking event source.

Modelling choices:
- Socket addresses, bind errors and address specifications are abstracted to
  numeric identifiers; the bridge treats them opaquely.
- A crossbeam channel endpoint is modelled as a queue of pending messages plus
  a `connected` flag recording whether the peer endpoint is still alive.
  `try_recv` yields buffered messages first and reports `Disconnected` only on
  an empty, disconnected channel, matching crossbeam semantics.
- The `Arc<AtomicBool>` stop signals are modelled as a list of booleans in a
  `World` record, indexed by the id of the spawned background thread; a
  `Socket` stores the index of its shared flag.
- Panics (the `unwrap` calls in the source) are modelled as explicit
  `panicked` outcomes.
-/

/-- A socket address (`std::net::SocketAddr`), abstracted to an identifier. -/
abbrev SocketAddr := Nat

/-- A bind-time transport error (what `laminar::ErrorKind` reports), abstracted. -/
abbrev BindError := Nat

/-- An address specification (the `ToSocketAddrs` bind argument), abstracted. -/
abbrev Addrs := Nat

/-- `laminar::Packet`: destination address, payload bytes, delivery-guarantee tag.
The bridge never inspects these fields. -/
structure Packet where
  address : SocketAddr
  payload : List Nat
  delivery : Nat
deriving DecidableEq

/-- `laminar::SocketEvent`: the transport-level events read off the receive channel. -/
inductive SocketEvent where
  | Packet (p : Packet)
  | Connect (a : SocketAddr)
  | Timeout (a : SocketAddr)
  | Disconnect (a : SocketAddr)
deriving DecidableEq

/-- `NetworkEvent` from `src/network.rs`: the event surface exposed to the application. -/
inductive NetworkEvent where
  | Message (p : Packet)
  | Connect (a : SocketAddr)
  | Timeout (a : SocketAddr)
  | Disconnect (a : SocketAddr)
deriving DecidableEq

/-- The receive-channel endpoint held by `Network.receiver`: queued transport
events plus whether the sending side (the background thread) is still alive. -/
structure EventChannel where
  queue : List SocketEvent
  connected : Bool
deriving DecidableEq

/-- The `Network` struct: an optional background-thread handle (identified by
its id) and an optional receive-channel endpoint. -/
structure Network where
  socket_thread : Option Nat
  receiver : Option EventChannel
deriving DecidableEq

/-- `Network::default()`: both fields start as `None`. -/
def Network.default : Network := ⟨none, none⟩

/-- `Network::new()` delegates to `Network::default()`. -/
def Network.new : Network := Network.default

/-- The send-channel endpoint held by a `Socket`: queued outbound packets plus
whether the receiving side (the laminar socket owned by the background thread)
is still alive. -/
structure SendChannel where
  queue : List Packet
  connected : Bool
deriving DecidableEq

/-- The `Socket` outbound handle: its send channel and the index of its shared
stop flag in the world's flag table. -/
structure Socket where
  sender : SendChannel
  stop_signal : Nat
deriving DecidableEq

/-- Full state: the `Network`, the stop flag of every spawned background
thread (indexed by thread id), and the log of thread ids that have been
joined by `get_event`'s cleanup. -/
structure World where
  net : Network
  flags : List Bool
  joined : List Nat
deriving DecidableEq

/-- The initial world: a fresh `Network::new()` with no threads spawned. -/
def World.init : World := ⟨Network.new, [], []⟩

/-- The translation applied by `get_event` to each received transport event
(the inner `match message` in the source). -/
def socketEventToNetworkEvent : SocketEvent → NetworkEvent
  | .Packet p => .Message p
  | .Connect a => .Connect a
  | .Timeout a => .Timeout a
  | .Disconnect a => .Disconnect a

/-- The outcome of a `get_event` call: a normal return carrying the drained
event (if any) and the updated state, or a panic (the `unwrap()` of
`socket_thread.take()` failing). -/
inductive GetEventResult where
  | ok (ev : Option NetworkEvent) (w : World)
  | panicked
deriving DecidableEq

/-- `Network::get_event`. The source's `loop` body executes at most once:
every arm of the inner match either returns or breaks. `try_recv` on a
non-empty queue pops the front event; on an empty connected channel it reports
`Empty` (return `None`, state untouched); on an empty disconnected channel the
cleanup takes and joins the background thread (panicking if `socket_thread` is
`None`), logs the join, clears both fields and returns `None`. -/
def Network.get_event (w : World) : GetEventResult :=
  match w.net.receiver with
  | none => .ok none w
  | some r =>
    match r.queue with
    | msg :: rest =>
      .ok (some (socketEventToNetworkEvent msg))
        { w with net := { w.net with receiver := some ⟨rest, r.connected⟩ } }
    | [] =>
      if r.connected then
        .ok none w
      else
        match w.net.socket_thread with
        | none => .panicked
        | some t =>
          .ok none { w with net := ⟨none, none⟩, joined := w.joined ++ [t] }

/-- Call `get_event` repeatedly, `k` times, collecting each call's result.
A panic stops the run. -/
def drainN : World → Nat → List (Option NetworkEvent) × World
  | w, 0 => ([], w)
  | w, k + 1 =>
    match Network.get_event w with
    | .ok ev w' =>
      let p := drainN w' k
      (ev :: p.1, p.2)
    | .panicked => ([], w)

/-- A world whose receive channel is empty and connected is a fixed point of
`get_event`, returning `None` each call. -/
theorem drainN_steady (w : World) (h : Network.get_event w = .ok none w) :
    ∀ m : Nat, drainN w m = (List.replicate m none, w) := by
  intro m
  induction m with
  | zero => rfl
  | succ k ih => simp [drainN, h, ih, List.replicate_succ]

/-- Claim C1: with `N` transport events queued on a connected receive channel,
`N + m` successive `get_event` calls return exactly those events, translated,
in FIFO order, one per call, followed by `m` calls returning `None`. -/
theorem get_event_fifo (evs : List SocketEvent) (t : Option Nat)
    (fl : List Bool) (j : List Nat) (m : Nat) :
    (drainN ⟨⟨t, some ⟨evs, true⟩⟩, fl, j⟩ (evs.length + m)).1 =
      evs.map (fun e => some (socketEventToNetworkEvent e)) ++ List.replicate m none := by
  induction evs with
  | nil =>
    have h : Network.get_event ⟨⟨t, some ⟨[], true⟩⟩, fl, j⟩ =
        .ok none ⟨⟨t, some ⟨[], true⟩⟩, fl, j⟩ := rfl
    simp [drainN_steady _ h m]
  | cons e rest ih =>
    simp only [List.length_cons, List.map_cons]
    have hstep : Network.get_event ⟨⟨t, some ⟨e :: rest, true⟩⟩, fl, j⟩ =
        .ok (some (socketEventToNetworkEvent e)) ⟨⟨t, some ⟨rest, true⟩⟩, fl, j⟩ := rfl
    have harith : rest.length + 1 + m = (rest.length + m) + 1 := by omega
    rw [harith]
    simp [drainN, hstep, ih]

/-- Claim C3: each transport-level event maps to exactly one `NetworkEvent` of
the same-named variant carrying the same payload or peer address, and a
`get_event` call on a non-empty channel consumes exactly the front event,
returning exactly its translation (nothing coalesced or dropped). -/
theorem event_translation (p : Packet) (a : SocketAddr) (e : SocketEvent)
    (rest : List SocketEvent) (c : Bool) (t : Option Nat)
    (fl : List Bool) (j : List Nat) :
    socketEventToNetworkEvent (SocketEvent.Packet p) = NetworkEvent.Message p
    ∧ socketEventToNetworkEvent (SocketEvent.Connect a) = NetworkEvent.Connect a
    ∧ socketEventToNetworkEvent (SocketEvent.Timeout a) = NetworkEvent.Timeout a
    ∧ socketEventToNetworkEvent (SocketEvent.Disconnect a) = NetworkEvent.Disconnect a
    ∧ Network.get_event ⟨⟨t, some ⟨e :: rest, c⟩⟩, fl, j⟩ =
        GetEventResult.ok (some (socketEventToNetworkEvent e)) ⟨⟨t, some ⟨rest, c⟩⟩, fl, j⟩ :=
  ⟨rfl, rfl, rfl, rfl, rfl⟩

/-- The outcome of `Socket::send`. The source returns `&Self` on success (for
chaining) and calls `.unwrap()` on the channel send, which panics when the
receiving end is gone. The `err` constructor is the outcome a
`Result`-returning send would produce on a disconnected channel; the source
never produces it (included only to state the spec's claimed signature). -/
inductive SendResult where
  | ret (s : Socket)
  | err
  | panicked
deriving DecidableEq

/-- `Socket::send`: `self.sender.send(packet).unwrap(); self`. Enqueueing on a
connected channel appends the packet and returns the handle; on a channel
whose peer endpoint is gone (the background loop exited and dropped the
laminar socket) the `unwrap` panics. -/
def Socket.send (s : Socket) (p : Packet) : SendResult :=
  if s.sender.connected then
    .ret { s with sender := ⟨s.sender.queue ++ [p], true⟩ }
  else
    .panicked

/-- Counterexample to claim C4 as stated: with the background loop exited and
the channel's peer endpoint gone, `send` does not return an error value — it
panics. -/
theorem send_after_shutdown_cex :
    Socket.send ⟨⟨[], false⟩, 0⟩ ⟨0, [7], 0⟩ ≠ SendResult.err
    ∧ Socket.send ⟨⟨[], false⟩, 0⟩ ⟨0, [7], 0⟩ = SendResult.panicked := by
  exact ⟨by decide, rfl⟩

/-- Claim C4 (amended): `send` on a connected channel appends the packet to
the send queue (successive sends preserve submission order) and returns the
handle; once the background loop has exited and the peer endpoint is gone,
`send` panics — the misuse is detected loudly, not silently dropped, but as a
panic rather than a returned `Result` error. -/
theorem send_behavior (l : List Packet) (i : Nat) (p q : Packet) :
    Socket.send ⟨⟨l, true⟩, i⟩ p = SendResult.ret ⟨⟨l ++ [p], true⟩, i⟩
    ∧ Socket.send ⟨⟨l ++ [p], true⟩, i⟩ q = SendResult.ret ⟨⟨l ++ [p, q], true⟩, i⟩
    ∧ Socket.send ⟨⟨l, false⟩, i⟩ p = SendResult.panicked := by
  refine ⟨rfl, ?_, rfl⟩
  simp [Socket.send]

/-- `laminar::Config`, re-exported as `NetworkConfig`: transport-defined
options, passed through opaquely by the bridge. -/
structure NetworkConfig where
  options : Nat
deriving DecidableEq

/-- `NetworkConfig::default()`. -/
def NetworkConfig.default : NetworkConfig := ⟨0⟩

/-- `Network::bind_with_config`. The transport's bind attempt is an oracle
`tr`: `tr addresses config = some e` means `laminar::Socket::bind_with_config`
fails with error `e` (propagated by `?` before any state change), `none` means
it succeeds. On success a fresh stop flag is allocated (initially `false`), a
background thread with id `w.flags.length` is spawned, both `Network` fields
are overwritten with the new thread handle and a fresh connected receive
channel, and the returned `Socket` holds a fresh connected send channel and
the new flag's index. -/
def Network.bind_with_config (w : World) (addresses : Addrs) (config : NetworkConfig)
    (tr : Addrs → NetworkConfig → Option BindError) :
    Except BindError Socket × World :=
  match tr addresses config with
  | some e => (.error e, w)
  | none =>
    (.ok ⟨⟨[], true⟩, w.flags.length⟩,
      { net := ⟨some w.flags.length, some ⟨[], true⟩⟩,
        flags := w.flags ++ [false],
        joined := w.joined })

/-- `Network::bind`: delegates to `bind_with_config` with `NetworkConfig::default()`. -/
def Network.bind (w : World) (addresses : Addrs)
    (tr : Addrs → NetworkConfig → Option BindError) :
    Except BindError Socket × World :=
  Network.bind_with_config w addresses NetworkConfig.default tr

/-- Claim C5: when the transport's bind fails, `bind_with_config` (and `bind`,
with the default configuration) returns the `BindError` synchronously and the
world is returned unchanged: no flag is allocated, no thread is spawned, and
`socket_thread` and `receiver` keep their previous values. -/
theorem bind_failure_leaves_state (w : World) (a : Addrs) (c : NetworkConfig)
    (tr : Addrs → NetworkConfig → Option BindError) (e : BindError) :
    (tr a c = some e → Network.bind_with_config w a c tr = (Except.error e, w))
    ∧ (tr a NetworkConfig.default = some e → Network.bind w a tr = (Except.error e, w)) := by
  constructor
  · intro h
    simp [Network.bind_with_config, h]
  · intro h
    simp [Network.bind, Network.bind_with_config, h]

/-- Witness for `bind_failure_leaves_state` at a concrete failing transport. -/
theorem bind_failure_leaves_state_witness :
    Network.bind_with_config World.init 0 NetworkConfig.default (fun _ _ => some 5) =
      (Except.error 5, World.init) :=
  (bind_failure_leaves_state World.init 0 NetworkConfig.default (fun _ _ => some 5) 5).1 rfl

/-- Claim C8: `bind` behaves identically to `bind_with_config` called with the
default transport configuration — same returned handle or error, same state
changes. -/
theorem bind_eq_bind_with_config_default (w : World) (a : Addrs)
    (tr : Addrs → NetworkConfig → Option BindError) :
    Network.bind w a tr = Network.bind_with_config w a NetworkConfig.default tr := rfl

/-- One observable action of the background poll loop's thread. -/
inductive LoopAction where
  | poll
  | sleepMs (n : Nat)
deriving DecidableEq

/-- The background poll loop spawned by `bind_with_config`, as a function of
the sequence of values its stop-flag loads observe (one load per iteration,
supplied by the environment since the application thread may set the flag at
any time): `while !stop.load { socket.manual_poll(now); sleep(1ms) }`. -/
def pollLoop : List Bool → List LoopAction
  | [] => []
  | b :: rest => if b then [] else .poll :: .sleepMs 1 :: pollLoop rest

/-- Claim C7: the poll loop runs one iteration per leading `false` flag read:
each iteration polls the transport and then sleeps one millisecond, and at the
first `true` read the loop exits immediately, never polling again. -/
theorem poll_loop_runs_until_flag (s : List Bool) :
    pollLoop s =
      List.flatten (List.replicate (s.takeWhile (fun b => !b)).length
        [LoopAction.poll, LoopAction.sleepMs 1]) := by
  induction s with
  | nil => rfl
  | cons b rest ih =>
    cases b with
    | false => simp [pollLoop, List.takeWhile, List.replicate_succ, ih]
    | true => simp [pollLoop, List.takeWhile]

/-- `Socket`'s `Drop` impl: `self.stop_signal.swap(true, Ordering::Relaxed)` —
sets the shared flag (the entry of the world's flag table the handle points
at) to `true`. -/
def Socket.drop (s : Socket) (flags : List Bool) : List Bool :=
  flags.set s.stop_signal true

/-- Environment action: the background thread pushes a transport event onto
the receive channel. Possible only while the channel's sender side is alive. -/
def deliverEvent (n : Network) (ev : SocketEvent) : Network :=
  match n.receiver with
  | some r => if r.connected then { n with receiver := some ⟨r.queue ++ [ev], true⟩ } else n
  | none => n

/-- Environment action: the background thread exits; dropping its laminar
socket disconnects the sender side of the receive channel. -/
def disconnectChannel (n : Network) : Network :=
  match n.receiver with
  | some r => { n with receiver := some ⟨r.queue, false⟩ }
  | none => n

/-- The operations that can act on a `World`: the `Network` methods, handle
destruction, and the two environment actions of the background thread. -/
inductive Op where
  | getEvent
  | bindOk (a : Addrs) (c : NetworkConfig)
  | bindFail (a : Addrs) (c : NetworkConfig) (e : BindError)
  | dropSocket (s : Socket)
  | deliver (ev : SocketEvent)
  | disconnect

/-- One operation applied to the world. `bindOk`/`bindFail` run
`bind_with_config` against a transport that succeeds/fails; a `getEvent`
panic leaves the state unchanged (the process would abort). -/
def step (w : World) : Op → World
  | .getEvent =>
    match Network.get_event w with
    | .ok _ w' => w'
    | .panicked => w
  | .bindOk a c => (Network.bind_with_config w a c (fun _ _ => none)).2
  | .bindFail a c e => (Network.bind_with_config w a c (fun _ _ => some e)).2
  | .dropSocket s => { w with flags := Socket.drop s w.flags }
  | .deliver ev => { w with net := deliverEvent w.net ev }
  | .disconnect => { w with net := disconnectChannel w.net }

/-- The worlds reachable from a fresh `Network::new()` under any sequence of
operations. -/
inductive Reachable : World → Prop
  | init : Reachable World.init
  | next (w : World) (op : Op) : Reachable w → Reachable (step w op)

/-- `get_event` never touches the flag table. -/
theorem get_event_flags (w : World) : (step w Op.getEvent).flags = w.flags := by
  unfold step Network.get_event
  rcases w with ⟨⟨t, r⟩, fl, j⟩
  cases r with
  | none => rfl
  | some ch =>
    rcases ch with ⟨q, c⟩
    cases q with
    | cons e rest => rfl
    | nil =>
      cases c with
      | true => rfl
      | false =>
        cases t with
        | none => rfl
        | some tid => rfl

/-- Claim C6: the shutdown-flag discipline. A successful bind allocates the
new thread's flag as `false`; destruction of the `Socket` sets exactly its own
flag to `true`; every other operation (`get_event`, a failed bind, event
delivery, disconnection) leaves the flag table untouched — destruction is the
only writer — and a flag once `true` stays `true` under every operation. -/
theorem stop_flag_discipline (w : World) (a : Addrs) (c : NetworkConfig)
    (e : BindError) (ev : SocketEvent) (s : Socket) (i : Nat) :
    (step w (Op.bindOk a c)).flags = w.flags ++ [false]
    ∧ (step w (Op.dropSocket s)).flags = w.flags.set s.stop_signal true
    ∧ (step w (Op.bindFail a c e)).flags = w.flags
    ∧ (step w Op.getEvent).flags = w.flags
    ∧ (step w (Op.deliver ev)).flags = w.flags
    ∧ (step w Op.disconnect).flags = w.flags
    ∧ (∀ op : Op, w.flags[i]? = some true → (step w op).flags[i]? = some true) := by
  refine ⟨rfl, rfl, rfl, get_event_flags w, rfl, rfl, ?_⟩
  intro op h
  have hi : i < w.flags.length := by
    by_contra hge
    rw [List.getElem?_eq_none (Nat.le_of_not_lt hge)] at h
    exact Option.noConfusion h
  cases op with
  | getEvent => rw [get_event_flags w]; exact h
  | bindOk a' c' =>
    show (w.flags ++ [false])[i]? = some true
    rw [List.getElem?_append, if_pos hi]
    exact h
  | bindFail a' c' e' => exact h
  | dropSocket s' =>
    show (w.flags.set s'.stop_signal true)[i]? = some true
    by_cases hidx : s'.stop_signal = i
    · subst hidx
      rw [List.getElem?_set_eq_of_lt true hi]
    · rw [List.getElem?_set_ne hidx]
      exact h
  | deliver ev' => exact h
  | disconnect => exact h

/-- Witness for `stop_flag_discipline`: concrete instantiation, with the
monotonicity conjunct applied to a world whose single flag is already `true`
and a `get_event` operation. -/
theorem stop_flag_discipline_witness :
    (step ⟨Network.new, [true], []⟩ (Op.bindOk 0 NetworkConfig.default)).flags = [true, false]
    ∧ (step ⟨Network.new, [true], []⟩ Op.getEvent).flags[0]? = some true := by
  have h := stop_flag_discipline ⟨Network.new, [true], []⟩ 0 NetworkConfig.default 0
    (SocketEvent.Connect 0) ⟨⟨[], true⟩, 0⟩ 0
  exact ⟨h.1, h.2.2.2.2.2.2 Op.getEvent rfl⟩

/-- The state invariant: the receive channel is held if and only if the
background thread handle is held. -/
def netInv (w : World) : Prop :=
  w.net.receiver.isSome = w.net.socket_thread.isSome

/-- Every operation preserves the invariant. -/
theorem netInv_step (w : World) (op : Op) (h : netInv w) : netInv (step w op) := by
  rcases w with ⟨⟨t, r⟩, fl, j⟩
  cases op with
  | getEvent =>
    cases r with
    | none => exact h
    | some ch =>
      rcases ch with ⟨q, c⟩
      cases q with
      | cons e rest => exact h
      | nil =>
        cases c with
        | true => exact h
        | false =>
          cases t with
          | none => exact h
          | some tid => rfl
  | bindOk a c => rfl
  | bindFail a c e => exact h
  | dropSocket s => exact h
  | deliver ev =>
    cases r with
    | none => exact h
    | some ch =>
      rcases ch with ⟨q, c⟩
      cases c with
      | true => exact h
      | false => exact h
  | disconnect =>
    cases r with
    | none => exact h
    | some ch => exact h

/-- The invariant holds in every reachable world. -/
theorem reachable_netInv (w : World) (h : Reachable w) : netInv w := by
  induction h with
  | init => rfl
  | next w' op _ ih => exact netInv_step w' op ih

/-- Claim C9: in every world reachable by any sequence of operations from a
fresh `Network::new()`, the `receiver` field is `Some` exactly when the
`socket_thread` field is `Some`; consequently the `unwrap` of
`socket_thread.take()` in `get_event`'s disconnected branch never panics. -/
theorem receiver_iff_thread (w : World) (h : Reachable w) :
    (w.net.receiver.isSome ↔ w.net.socket_thread.isSome)
    ∧ Network.get_event w ≠ GetEventResult.panicked := by
  have hinv := reachable_netInv w h
  unfold netInv at hinv
  constructor
  · rw [hinv]
  · rcases w with ⟨⟨t, r⟩, fl, j⟩
    cases r with
    | none => simp [Network.get_event]
    | some ch =>
      have ht : ∃ tid, t = some tid := by
        simp only [Option.isSome_some] at hinv
        exact Option.isSome_iff_exists.mp hinv.symm
      rcases ht with ⟨tid, rfl⟩
      rcases ch with ⟨q, c⟩
      cases q with
      | cons e rest => simp [Network.get_event]
      | nil => cases c <;> simp [Network.get_event]

/-- Witness for `receiver_iff_thread` at the initial world. -/
theorem receiver_iff_thread_witness :
    (World.init.net.receiver.isSome ↔ World.init.net.socket_thread.isSome)
    ∧ Network.get_event World.init ≠ GetEventResult.panicked :=
  receiver_iff_thread World.init Reachable.init

/-- Claim C2: in every reachable world, `get_event` returns `None` exactly
when no background unit was ever started (or it has been cleaned up:
`receiver` is `None`), the channel is empty, or the channel is empty and
disconnected. With `receiver = None` the call returns immediately with the
state untouched (no join attempted). On the call that first observes an empty
disconnected channel, the thread is joined (logged) and both fields cleared,
and the resulting world is a fixed point: subsequent calls return `None`
without any further join. -/
theorem get_event_none_characterization (w : World) (h : Reachable w) :
    ((∃ w', Network.get_event w = GetEventResult.ok none w') ↔
      (w.net.receiver = none
        ∨ (∃ r, w.net.receiver = some r ∧ r.queue = [] ∧ r.connected = true)
        ∨ (∃ r, w.net.receiver = some r ∧ r.queue = [] ∧ r.connected = false)))
    ∧ (w.net.receiver = none → Network.get_event w = GetEventResult.ok none w)
    ∧ (∀ r t, w.net.receiver = some r → r.queue = [] → r.connected = false →
        w.net.socket_thread = some t →
        Network.get_event w =
          GetEventResult.ok none ⟨⟨none, none⟩, w.flags, w.joined ++ [t]⟩
        ∧ Network.get_event ⟨⟨none, none⟩, w.flags, w.joined ++ [t]⟩ =
            GetEventResult.ok none ⟨⟨none, none⟩, w.flags, w.joined ++ [t]⟩) := by
  have hinv := reachable_netInv w h
  unfold netInv at hinv
  rcases w with ⟨⟨t, r⟩, fl, j⟩
  refine ⟨⟨?_, ?_⟩, ?_, ?_⟩
  · rintro ⟨w', hw⟩
    cases r with
    | none => exact Or.inl rfl
    | some ch =>
      rcases ch with ⟨q, c⟩
      cases q with
      | cons e rest => simp [Network.get_event] at hw
      | nil =>
        cases c with
        | true => exact Or.inr (Or.inl ⟨⟨[], true⟩, rfl, rfl, rfl⟩)
        | false => exact Or.inr (Or.inr ⟨⟨[], false⟩, rfl, rfl, rfl⟩)
  · intro hcase
    rcases hcase with hnone | ⟨rr, hrr, hq, hc⟩ | ⟨rr, hrr, hq, hc⟩
    · simp only at hnone
      subst hnone
      exact ⟨_, rfl⟩
    · simp only at hrr
      subst hrr
      rcases rr with ⟨q, c⟩
      simp only at hq hc
      subst hq
      subst hc
      exact ⟨_, rfl⟩
    · simp only at hrr
      subst hrr
      rcases rr with ⟨q, c⟩
      simp only at hq hc
      subst hq
      subst hc
      have ht : ∃ tid, t = some tid := by
        simp only [Option.isSome_some] at hinv
        exact Option.isSome_iff_exists.mp hinv.symm
      rcases ht with ⟨tid, rfl⟩
      exact ⟨_, rfl⟩
  · intro hnone
    simp only at hnone
    subst hnone
    rfl
  · intro rr t' hrr hq hc ht
    simp only at hrr ht
    subst hrr
    subst ht
    rcases rr with ⟨q, c⟩
    simp only at hq hc
    subst hq
    subst hc
    exact ⟨rfl, rfl⟩

/-- Witness for `get_event_none_characterization`: the reachable world
obtained by a successful bind followed by the background thread's exit; the
first `get_event` call joins thread 0 and clears both fields. -/
theorem get_event_none_characterization_witness :
    Network.get_event ⟨⟨some 0, some ⟨[], false⟩⟩, [false], []⟩ =
      GetEventResult.ok none ⟨⟨none, none⟩, [false], [0]⟩ := by
  have h1 := Reachable.next World.init (Op.bindOk 0 NetworkConfig.default) Reachable.init
  have h2 := Reachable.next _ Op.disconnect h1
  exact ((get_event_none_characterization ⟨⟨some 0, some ⟨[], false⟩⟩, [false], []⟩ h2).2.2
    ⟨[], false⟩ 0 rfl rfl rfl rfl).1

/-- Claim C10: a second successful bind on a world whose previous background
unit is still recorded unconditionally overwrites `socket_thread` with the new
thread's id and `receiver` with the fresh connected channel, while joining
nothing (the join log is unchanged) and signaling nothing (every existing stop
flag keeps its value, so the old thread keeps running until its own handle's
flag is set). -/
theorem rebind_overwrites (w : World) (a : Addrs) (c : NetworkConfig) (t : Nat)
    (_h : w.net.socket_thread = some t) :
    (step w (Op.bindOk a c)).net.socket_thread = some w.flags.length
    ∧ (step w (Op.bindOk a c)).net.receiver = some ⟨[], true⟩
    ∧ (step w (Op.bindOk a c)).joined = w.joined
    ∧ ∀ i, i < w.flags.length → (step w (Op.bindOk a c)).flags[i]? = w.flags[i]? := by
  refine ⟨rfl, rfl, rfl, ?_⟩
  intro i hi
  show (w.flags ++ [false])[i]? = w.flags[i]?
  rw [List.getElem?_append, if_pos hi]

/-- Witness for `rebind_overwrites`: rebinding over a world holding thread 0
yields thread 1, a fresh channel, an unchanged join log, and an unchanged flag
for thread 0. -/
theorem rebind_overwrites_witness :
    (step ⟨⟨some 0, some ⟨[], true⟩⟩, [false], []⟩
        (Op.bindOk 0 NetworkConfig.default)).net.socket_thread = some 1
    ∧ (step ⟨⟨some 0, some ⟨[], true⟩⟩, [false], []⟩
        (Op.bindOk 0 NetworkConfig.default)).net.receiver = some ⟨[], true⟩
    ∧ (step ⟨⟨some 0, some ⟨[], true⟩⟩, [false], []⟩
        (Op.bindOk 0 NetworkConfig.default)).joined = []
    ∧ (step ⟨⟨some 0, some ⟨[], true⟩⟩, [false], []⟩
        (Op.bindOk 0 NetworkConfig.default)).flags[0]? = some false := by
  have h := rebind_overwrites ⟨⟨some 0, some ⟨[], true⟩⟩, [false], []⟩ 0
    NetworkConfig.default 0 rfl
  exact ⟨h.1, h.2.1, h.2.2.1, h.2.2.2 0 (by decide)⟩
